import Mathlib

/-!
Shallow embedding of the doc_safe backend (server/src): the `requireAuth`
middleware (middleware/auth.ts) and the four file-lifecycle route handlers
(routes/files.ts).  External collaborators (identity service, object store,
metadata table) are modelled by explicit outcome parameters, and every call a
handler makes to them is recorded in an action trace, so that claims about
which external operations happen (and in which order) can be stated.
-/

namespace DocSafe

/-- A user identity as produced by the identity verifier
(`req.user` in middleware/auth.ts: `{ id, email?, role? }`). -/
structure User where
  id : String
  email : Option String := none
  role : Option String := none
deriving DecidableEq, Repr

/-- A decoded multipart file as produced by multer (`req.file`):
`originalname`, `mimetype`, `size` (byte count), plus a buffer whose
bytes the handlers never inspect (only forward), so it is not modelled. -/
structure UpFile where
  originalname : String
  mimetype : String
  size : Nat
deriving DecidableEq, Repr

/-- A metadata row of the `files` table (schema.sql): id and created_at are
generated by the store, the other five fields are supplied at insert time. -/
structure FileRecord where
  id : String
  storage_path : String
  original_filename : String
  file_type : String
  file_size : Nat
  owner_id : String
  created_at : Nat
deriving DecidableEq, Repr

/-- The JSON bodies the routes in files.ts can answer with. -/
inductive Body where
  | errorMsg (error : String)
  | errorDetails (error : String) (details : String)
  | uploaded (message : String) (file : FileRecord)
  | fileList (files : List FileRecord)
  | message (msg : String)
  | downloadUrl (url : String)
deriving DecidableEq, Repr

/-- An HTTP response: status code plus JSON body. -/
structure Resp where
  status : Nat
  body : Body
deriving DecidableEq, Repr

/-- Calls a handler makes to the external object store / metadata table,
in program order. -/
inductive Action where
  | storagePut (path : String)
  | storageRemove (path : String)
  | dbInsertRow (storage_path original_filename file_type : String)
      (file_size : Nat) (owner_id : String)
  | dbDeleteRow (id owner_id : String)
  | signedUrlReq (path : String) (ttlSeconds : Nat)
deriving DecidableEq, Repr

/-- A handler outcome: the HTTP response and the trace of external calls. -/
structure HResult where
  resp : Resp
  actions : List Action
deriving DecidableEq, Repr

/-! ### requireAuth (middleware/auth.ts) -/

/-- Outcome of the requireAuth middleware: `resp` is `some` when the
middleware answers itself and `none` when it calls `next()`; `verified`
records the token submitted to the external verifier, `none` when the
verifier was never called. -/
structure AuthOutcome where
  resp : Option Resp
  user : Option User
  verified : Option String
deriving DecidableEq, Repr

/-- `requireAuth` (middleware/auth.ts).  `verifyUser t` is the outcome the
external identity service returns for token `t`
(`supabaseAuth.auth.getUser(token)`; a null user with no error is folded
into `.error`).  In Express a missing Authorization header is `undefined`
and an empty one is falsy, so both take the first branch;
`authHeader.split(' ')[1]` is JS split on the single character `' '`
(keeping empty segments) indexed at 1, `undefined` (merged here with `""`
via `getD`, both falsy) when there is no second segment. -/
def requireAuth (authHeader : Option String)
    (verifyUser : String → Except String User) : AuthOutcome :=
  match authHeader with
  | none => ⟨some ⟨401, .errorMsg "Missing Authorization header"⟩, none, none⟩
  | some h =>
    if h = "" then
      ⟨some ⟨401, .errorMsg "Missing Authorization header"⟩, none, none⟩
    else
      let token := ((h.split (fun c => c == ' ')).get? 1).getD ""
      if token = "" then
        ⟨some ⟨401, .errorMsg "Missing Bearer token"⟩, none, none⟩
      else
        match verifyUser token with
        | .error _ => ⟨some ⟨401, .errorMsg "Invalid or expired token"⟩, none, some token⟩
        | .ok u => ⟨none, some u, some token⟩

/-! ### POST /upload (routes/files.ts) -/

/-- The multer `limits.fileSize` value: `10 * 1024 * 1024`. -/
def MAX_FILE_SIZE : Nat := 10 * 1024 * 1024

/-- `file.originalname.split('.').pop()`: JS split on the single character
`'.'` keeps empty segments and never returns an empty array, so `pop()`
always yields the last segment (the `getD ""` default is unreachable). -/
def fileExt (name : String) : String :=
  ((name.split (fun c => c == '.')).getLast?).getD ""

/-- `` `${user.id}/${uuidv4()}.${fileExt}` `` — the storage key derived at
upload time; `uuid` stands for the freshly generated `uuidv4()` value. -/
def derivedPath (ownerId uuid filename : String) : String :=
  ownerId ++ "/" ++ uuid ++ "." ++ fileExt filename

/-- Outcomes of the three external calls the upload handler can make:
the object-store write (on success the store reports the stored path,
`storageData.path`), the metadata insert (on success the store generates
`id` and `created_at` and echoes the full row), and the compensating
remove, whose result the code ignores. -/
structure UploadEnv where
  storageUpload : Except String String
  dbInsertRes : Except String (String × Nat)
  removeRes : Except String Unit
deriving Repr

/-- The try-block of `router.post('/upload')` (routes/files.ts): validate
presence of file and user, derive the storage key, write the object,
insert the metadata row, compensate by removing the just-written object
(at the derived `fileName`, result ignored) when the insert fails. -/
def uploadHandler (user : Option User) (file : Option UpFile) (uuid : String)
    (env : UploadEnv) : HResult :=
  match file, user with
  | some f, some u =>
    let fileName := derivedPath u.id uuid f.originalname
    match env.storageUpload with
    | .error msg =>
      ⟨⟨500, .errorDetails "Failed to upload file to storage" msg⟩,
        [.storagePut fileName]⟩
    | .ok storedPath =>
      match env.dbInsertRes with
      | .error msg =>
        ⟨⟨500, .errorDetails "Failed to save file metadata" msg⟩,
          [.storagePut fileName,
           .dbInsertRow storedPath f.originalname f.mimetype f.size u.id,
           .storageRemove fileName]⟩
      | .ok (rowId, t) =>
        ⟨⟨201, .uploaded "File uploaded successfully"
            { id := rowId, storage_path := storedPath,
              original_filename := f.originalname, file_type := f.mimetype,
              file_size := f.size, owner_id := u.id, created_at := t }⟩,
          [.storagePut fileName,
           .dbInsertRow storedPath f.originalname f.mimetype f.size u.id]⟩
  | _, _ => ⟨⟨400, .errorMsg "No file provided or user not authenticated"⟩, []⟩

/-- The multer stage of the upload route (`upload.single('file')` with
`memoryStorage` and `limits.fileSize = MAX_FILE_SIZE`): an oversize part
aborts parsing with `MulterError('LIMIT_FILE_SIZE')` whose message is
"File too large", passed to `next(err)` before the handler runs. -/
def multerSingle (file : Option UpFile) : Except String (Option UpFile) :=
  match file with
  | some f => if f.size > MAX_FILE_SIZE then .error "File too large" else .ok (some f)
  | none => .ok none

/-- The full `POST /api/files/upload` pipeline after requireAuth: the multer
stage, whose error no route-level middleware catches, falls through to the
global error handler in index.ts
(`res.status(500).json({ error: 'Internal Server Error', details: err.message })`);
otherwise the upload handler runs. -/
def uploadRoute (user : Option User) (file : Option UpFile) (uuid : String)
    (env : UploadEnv) : HResult :=
  match multerSingle file with
  | .error msg => ⟨⟨500, .errorDetails "Internal Server Error" msg⟩, []⟩
  | .ok f => uploadHandler user f uuid env

/-! ### GET / (list), DELETE /:id, GET /:id/download (routes/files.ts) -/

/-- The metadata query behind `GET /`:
`.select('*').eq('owner_id', user.id).order('created_at', { ascending: false })`
over the current table contents `db`. -/
def listQuery (db : List FileRecord) (ownerId : String) : List FileRecord :=
  (db.filter (fun r => r.owner_id == ownerId)).mergeSort
    (fun a b => b.created_at ≤ a.created_at)

/-- `router.get('/')` (routes/files.ts): `dbErr` is the error of the
external query when it fails (`none` on success, in which case the query
semantics over the table contents `db` applies). -/
def listHandler (db : List FileRecord) (user : Option User)
    (dbErr : Option String) : HResult :=
  match user with
  | none => ⟨⟨401, .errorMsg "Unauthorized"⟩, []⟩
  | some u =>
    match dbErr with
    | some msg => ⟨⟨500, .errorDetails "Failed to retrieve files" msg⟩, []⟩
    | none => ⟨⟨200, .fileList (listQuery db u.id)⟩, []⟩

/-- `.select('*').eq('id', id).eq('owner_id', ownerId).single()`: the single
query predicate combining id and owner; `single()` yields the row when the
filtered set is a singleton and an error (here `none`, merged with the
`!fileRecord` check) otherwise — id is the primary key, so the filtered
set has at most one element and `head?` is that row. -/
def selectOne (db : List FileRecord) (id ownerId : String) : Option FileRecord :=
  (db.filter (fun r => r.id == id && r.owner_id == ownerId)).head?

/-- Outcomes of the external calls of `DELETE /:id`: the object-store
remove and the metadata delete (`some msg` = failure). -/
structure DeleteEnv where
  storageRemoveRes : Except String Unit
  dbDeleteRes : Option String
deriving Repr

/-- Outcome of `DELETE /:id`: response, external-call trace and the table
contents after the request. -/
structure DeleteResult where
  resp : Resp
  actions : List Action
  db : List FileRecord
deriving Repr

/-- `router.delete('/:id')` (routes/files.ts): fetch by the combined
id+owner predicate (404 on miss), remove the object at the row's
storage_path — a failure there is only logged (`console.warn`) and
execution proceeds — then delete the metadata row with the same
predicate; only that last failure is reported (500). -/
def deleteHandler (db : List FileRecord) (user : Option User) (id : String)
    (env : DeleteEnv) : DeleteResult :=
  match user with
  | none => ⟨⟨401, .errorMsg "Unauthorized"⟩, [], db⟩
  | some u =>
    match selectOne db id u.id with
    | none => ⟨⟨404, .errorMsg "File not found"⟩, [], db⟩
    | some r =>
      match env.dbDeleteRes with
      | some _ =>
        ⟨⟨500, .errorMsg "Failed to delete file record"⟩,
          [.storageRemove r.storage_path, .dbDeleteRow id u.id], db⟩
      | none =>
        ⟨⟨200, .message "File deleted successfully"⟩,
          [.storageRemove r.storage_path, .dbDeleteRow id u.id],
          db.filter (fun x => !(x.id == id && x.owner_id == u.id))⟩

/-- Outcome of the external `createSignedUrl` call of `GET /:id/download`
(on success, the signed URL string; a null `signedUrlData` is folded into
`.error`). -/
structure DownloadEnv where
  signedUrlRes : Except String String
deriving Repr

/-- `router.get('/:id/download')` (routes/files.ts): fetch by the combined
id+owner predicate (404 on miss), request a signed URL for the row's
storage_path with expiry `60 * 60` seconds, and return only that URL. -/
def downloadHandler (db : List FileRecord) (user : Option User) (id : String)
    (env : DownloadEnv) : HResult :=
  match user with
  | none => ⟨⟨401, .errorMsg "Unauthorized"⟩, []⟩
  | some u =>
    match selectOne db id u.id with
    | none => ⟨⟨404, .errorMsg "File not found"⟩, []⟩
    | some r =>
      match env.signedUrlRes with
      | .error _ =>
        ⟨⟨500, .errorMsg "Failed to generate download link"⟩,
          [.signedUrlReq r.storage_path (60 * 60)]⟩
      | .ok url =>
        ⟨⟨200, .downloadUrl url⟩, [.signedUrlReq r.storage_path (60 * 60)]⟩

/-- A sample row owned by alice, for concrete instantiations. -/
def rowA : FileRecord := ⟨"f1", "alice/u.txt", "a.txt", "text/plain", 5, "alice", 0⟩

/-- A sample row owned by bob, for concrete instantiations. -/
def rowB : FileRecord := ⟨"f2", "bob/v.txt", "b.txt", "text/plain", 6, "bob", 1⟩

/-! ### Helper lemmas -/

/-- The combined id+owner predicate finds nothing when no row carries both
the requested id and the requesting owner. -/
theorem selectOne_eq_none (db : List FileRecord) (id ownerId : String)
    (h : ∀ r ∈ db, ¬(r.id = id ∧ r.owner_id = ownerId)) :
    selectOne db id ownerId = none := by
  unfold selectOne
  rw [List.head?_eq_none_iff, List.filter_eq_nil_iff]
  intro r hr
  simp only [Bool.and_eq_true, beq_iff_eq, not_and]
  exact fun h1 h2 => h r hr ⟨h1, h2⟩

/-! ### Claims -/

/-- C1: when the object-store write succeeds but the metadata insert fails,
the upload handler performs exactly one object deletion, at the derived
path, and answers 500 with the insert error's message — whatever the
outcome of that compensating deletion (`env.removeRes` is arbitrary). -/
theorem upload_insert_failure_compensation
    (u : User) (f : UpFile) (uuid msg storedPath : String) (env : UploadEnv)
    (hs : env.storageUpload = .ok storedPath)
    (hd : env.dbInsertRes = .error msg) :
    (uploadHandler (some u) (some f) uuid env).resp =
      ⟨500, .errorDetails "Failed to save file metadata" msg⟩ ∧
    ((uploadHandler (some u) (some f) uuid env).actions.filter
        (fun a => match a with | .storageRemove _ => true | _ => false)) =
      [.storageRemove (derivedPath u.id uuid f.originalname)] := by
  unfold uploadHandler
  rw [hs, hd]
  exact ⟨rfl, rfl⟩

/-- Witness for C1: a concrete upload where the insert fails and the
compensating deletion itself also fails. -/
theorem upload_insert_failure_compensation_witness :
    (uploadHandler (some ⟨"alice", none, none⟩) (some ⟨"a.txt", "text/plain", 5⟩)
        "uid" ⟨.ok "alice/uid.txt", .error "duplicate key", .error "network"⟩).resp =
      ⟨500, .errorDetails "Failed to save file metadata" "duplicate key"⟩ ∧
    ((uploadHandler (some ⟨"alice", none, none⟩) (some ⟨"a.txt", "text/plain", 5⟩)
        "uid" ⟨.ok "alice/uid.txt", .error "duplicate key", .error "network"⟩).actions.filter
        (fun a => match a with | .storageRemove _ => true | _ => false)) =
      [.storageRemove (derivedPath "alice" "uid" "a.txt")] :=
  upload_insert_failure_compensation ⟨"alice", none, none⟩ ⟨"a.txt", "text/plain", 5⟩
    "uid" "duplicate key" "alice/uid.txt" _ rfl rfl

/-- C2: for a caller `u` and an id such that no row combines that id with
`u` as owner — which covers both a nonexistent id and an id owned by
someone else — Delete and Download answer with the identical fixed 404
response, perform no external call, and leave the table unchanged. -/
theorem crossOwner_indistinguishable_from_missing
    (db : List FileRecord) (u : User) (id : String)
    (denv : DeleteEnv) (wenv : DownloadEnv)
    (h : ∀ r ∈ db, ¬(r.id = id ∧ r.owner_id = u.id)) :
    deleteHandler db (some u) id denv =
      ⟨⟨404, .errorMsg "File not found"⟩, [], db⟩ ∧
    downloadHandler db (some u) id wenv =
      ⟨⟨404, .errorMsg "File not found"⟩, []⟩ := by
  have hn := selectOne_eq_none db id u.id h
  simp only [deleteHandler, downloadHandler, hn]
  exact ⟨by trivial, by trivial⟩

/-- Witness for C2: the table holds a row with the requested id, but owned
by alice; caller bob gets the same 404 as for a missing id. -/
theorem crossOwner_indistinguishable_from_missing_witness :
    deleteHandler [⟨"f1", "alice/u.txt", "a.txt", "text/plain", 5, "alice", 0⟩]
        (some ⟨"bob", none, none⟩) "f1" ⟨.ok (), none⟩ =
      ⟨⟨404, .errorMsg "File not found"⟩, [],
        [⟨"f1", "alice/u.txt", "a.txt", "text/plain", 5, "alice", 0⟩]⟩ ∧
    downloadHandler [⟨"f1", "alice/u.txt", "a.txt", "text/plain", 5, "alice", 0⟩]
        (some ⟨"bob", none, none⟩) "f1" ⟨.ok "url"⟩ =
      ⟨⟨404, .errorMsg "File not found"⟩, []⟩ :=
  crossOwner_indistinguishable_from_missing
    [⟨"f1", "alice/u.txt", "a.txt", "text/plain", 5, "alice", 0⟩]
    ⟨"bob", none, none⟩ "f1" ⟨.ok (), none⟩ ⟨.ok "url"⟩ (by decide)

/-- C3: deleting an owned, existing record always attempts the object
removal and then the metadata-row delete (`env.storageRemoveRes` is
arbitrary: its failure is swallowed); the caller gets 500 exactly when the
metadata delete fails, and the success message (with the row gone from the
table) otherwise. -/
theorem delete_owned_swallows_storage_failure
    (db : List FileRecord) (u : User) (id : String) (env : DeleteEnv)
    (r : FileRecord) (h : selectOne db id u.id = some r) :
    (deleteHandler db (some u) id env).actions =
      [.storageRemove r.storage_path, .dbDeleteRow id u.id] ∧
    (env.dbDeleteRes = none →
      deleteHandler db (some u) id env =
        ⟨⟨200, .message "File deleted successfully"⟩,
         [.storageRemove r.storage_path, .dbDeleteRow id u.id],
         db.filter (fun x => !(x.id == id && x.owner_id == u.id))⟩) ∧
    (∀ msg, env.dbDeleteRes = some msg →
      deleteHandler db (some u) id env =
        ⟨⟨500, .errorMsg "Failed to delete file record"⟩,
         [.storageRemove r.storage_path, .dbDeleteRow id u.id], db⟩) := by
  simp only [deleteHandler, h]
  cases henv : env.dbDeleteRes with
  | none => exact ⟨rfl, fun _ => rfl, fun msg hmsg => by simp at hmsg⟩
  | some m =>
    exact ⟨rfl, fun hc => by simp at hc, fun msg hmsg => rfl⟩

/-- Witness for C3: alice deletes her own row while the object-store
removal fails; the row is still deleted and the response is the success
message. -/
theorem delete_owned_swallows_storage_failure_witness :
    (deleteHandler [⟨"f1", "alice/u.txt", "a.txt", "text/plain", 5, "alice", 0⟩]
        (some ⟨"alice", none, none⟩) "f1" ⟨.error "storage down", none⟩).actions =
      [.storageRemove "alice/u.txt", .dbDeleteRow "f1" "alice"] ∧
    ((⟨.error "storage down", none⟩ : DeleteEnv).dbDeleteRes = none →
      deleteHandler [⟨"f1", "alice/u.txt", "a.txt", "text/plain", 5, "alice", 0⟩]
          (some ⟨"alice", none, none⟩) "f1" ⟨.error "storage down", none⟩ =
        ⟨⟨200, .message "File deleted successfully"⟩,
         [.storageRemove "alice/u.txt", .dbDeleteRow "f1" "alice"],
         [⟨"f1", "alice/u.txt", "a.txt", "text/plain", 5, "alice", 0⟩].filter
           (fun x => !(x.id == "f1" && x.owner_id == "alice"))⟩) ∧
    (∀ msg, (⟨.error "storage down", none⟩ : DeleteEnv).dbDeleteRes = some msg →
      deleteHandler [⟨"f1", "alice/u.txt", "a.txt", "text/plain", 5, "alice", 0⟩]
          (some ⟨"alice", none, none⟩) "f1" ⟨.error "storage down", none⟩ =
        ⟨⟨500, .errorMsg "Failed to delete file record"⟩,
         [.storageRemove "alice/u.txt", .dbDeleteRow "f1" "alice"],
         [⟨"f1", "alice/u.txt", "a.txt", "text/plain", 5, "alice", 0⟩]⟩) :=
  delete_owned_swallows_storage_failure
    [⟨"f1", "alice/u.txt", "a.txt", "text/plain", 5, "alice", 0⟩]
    ⟨"alice", none, none⟩ "f1" ⟨.error "storage down", none⟩
    ⟨"f1", "alice/u.txt", "a.txt", "text/plain", 5, "alice", 0⟩ rfl

/-- C5: a fully successful upload (authenticated owner, decoded file, both
external calls succeed; the store reports back the submitted key, which is
its contract) answers 201 with the full inserted row, whose owner_id is
the caller's id and whose storage_path is `{owner_id}/{uuid}.{ext}` with
`uuid` the freshly generated identifier and `ext` taken from the original
filename. -/
theorem upload_success_created_row
    (u : User) (f : UpFile) (uuid rowId : String) (t : Nat) (env : UploadEnv)
    (hs : env.storageUpload = .ok (derivedPath u.id uuid f.originalname))
    (hd : env.dbInsertRes = .ok (rowId, t)) :
    uploadHandler (some u) (some f) uuid env =
      ⟨⟨201, .uploaded "File uploaded successfully"
          { id := rowId,
            storage_path := u.id ++ "/" ++ uuid ++ "." ++ fileExt f.originalname,
            original_filename := f.originalname, file_type := f.mimetype,
            file_size := f.size, owner_id := u.id, created_at := t }⟩,
        [.storagePut (derivedPath u.id uuid f.originalname),
         .dbInsertRow (derivedPath u.id uuid f.originalname)
           f.originalname f.mimetype f.size u.id]⟩ := by
  unfold uploadHandler
  rw [hs, hd]
  rfl

/-- Witness for C5: a concrete successful upload by alice. -/
theorem upload_success_created_row_witness :
    uploadHandler (some ⟨"alice", none, none⟩) (some ⟨"a.txt", "text/plain", 5⟩)
        "uid" ⟨.ok (derivedPath "alice" "uid" "a.txt"), .ok ("f1", 7), .ok ()⟩ =
      ⟨⟨201, .uploaded "File uploaded successfully"
          { id := "f1",
            storage_path := "alice" ++ "/" ++ "uid" ++ "." ++ fileExt "a.txt",
            original_filename := "a.txt", file_type := "text/plain",
            file_size := 5, owner_id := "alice", created_at := 7 }⟩,
        [.storagePut (derivedPath "alice" "uid" "a.txt"),
         .dbInsertRow (derivedPath "alice" "uid" "a.txt")
           "a.txt" "text/plain" 5 "alice"]⟩ :=
  upload_success_created_row ⟨"alice", none, none⟩ ⟨"a.txt", "text/plain", 5⟩
    "uid" "f1" 7 _ rfl rfl

/-- C7: downloading an owned, existing record requests exactly one signed
URL, for the row's storage_path with expiry 3600 seconds, and on success
the response body carries only that URL string (no byte transfer appears
in the handler's external-call trace). -/
theorem download_owned_signed_url
    (db : List FileRecord) (u : User) (id : String) (env : DownloadEnv)
    (r : FileRecord) (h : selectOne db id u.id = some r) :
    (downloadHandler db (some u) id env).actions =
      [.signedUrlReq r.storage_path 3600] ∧
    (∀ url, env.signedUrlRes = .ok url →
      downloadHandler db (some u) id env =
        ⟨⟨200, .downloadUrl url⟩, [.signedUrlReq r.storage_path 3600]⟩) ∧
    (∀ e, env.signedUrlRes = .error e →
      downloadHandler db (some u) id env =
        ⟨⟨500, .errorMsg "Failed to generate download link"⟩,
         [.signedUrlReq r.storage_path 3600]⟩) := by
  simp only [downloadHandler, h]
  cases henv : env.signedUrlRes with
  | error e =>
    exact ⟨by norm_num, fun url hc => by simp at hc, fun e2 he2 => by norm_num⟩
  | ok url =>
    exact ⟨by norm_num, fun url2 hu2 => by simp at hu2 ⊢; simp [hu2], fun e he => by simp at he⟩

/-- Witness for C7: alice downloads her own row; the store issues the URL. -/
theorem download_owned_signed_url_witness :
    (downloadHandler [⟨"f1", "alice/u.txt", "a.txt", "text/plain", 5, "alice", 0⟩]
        (some ⟨"alice", none, none⟩) "f1" ⟨.ok "https://signed"⟩).actions =
      [.signedUrlReq "alice/u.txt" 3600] ∧
    (∀ url, (⟨.ok "https://signed"⟩ : DownloadEnv).signedUrlRes = .ok url →
      downloadHandler [⟨"f1", "alice/u.txt", "a.txt", "text/plain", 5, "alice", 0⟩]
          (some ⟨"alice", none, none⟩) "f1" ⟨.ok "https://signed"⟩ =
        ⟨⟨200, .downloadUrl url⟩, [.signedUrlReq "alice/u.txt" 3600]⟩) ∧
    (∀ e, (⟨.ok "https://signed"⟩ : DownloadEnv).signedUrlRes = .error e →
      downloadHandler [⟨"f1", "alice/u.txt", "a.txt", "text/plain", 5, "alice", 0⟩]
          (some ⟨"alice", none, none⟩) "f1" ⟨.ok "https://signed"⟩ =
        ⟨⟨500, .errorMsg "Failed to generate download link"⟩,
         [.signedUrlReq "alice/u.txt" 3600]⟩) :=
  download_owned_signed_url
    [⟨"f1", "alice/u.txt", "a.txt", "text/plain", 5, "alice", 0⟩]
    ⟨"alice", none, none⟩ "f1" ⟨.ok "https://signed"⟩
    ⟨"f1", "alice/u.txt", "a.txt", "text/plain", 5, "alice", 0⟩ rfl

/-- C6: a successful List answers 200 with exactly the caller's rows (a
row is in the result iff it is a table row whose owner_id is the caller's
id), ordered by created_at descending, and an owner with no rows gets the
empty sequence as a success. -/
theorem list_exactly_owner_rows_sorted (db : List FileRecord) (u : User) :
    listHandler db (some u) none = ⟨⟨200, .fileList (listQuery db u.id)⟩, []⟩ ∧
    (∀ r, r ∈ listQuery db u.id ↔ (r ∈ db ∧ r.owner_id = u.id)) ∧
    (listQuery db u.id).Perm (db.filter (fun r => r.owner_id == u.id)) ∧
    (listQuery db u.id).Pairwise (fun a b => b.created_at ≤ a.created_at) ∧
    ((∀ r ∈ db, r.owner_id ≠ u.id) → listQuery db u.id = []) := by
  refine ⟨rfl, ?_, List.mergeSort_perm _ _, ?_, ?_⟩
  · intro r
    unfold listQuery
    rw [List.mem_mergeSort, List.mem_filter]
    simp [beq_iff_eq]
  · unfold listQuery
    have hs := @List.sorted_mergeSort FileRecord
      (fun a b : FileRecord => decide (b.created_at ≤ a.created_at))
      (fun a b c hab hbc => by
        simp only [decide_eq_true_eq] at *
        exact le_trans hbc hab)
      (fun a b => by
        simp only [Bool.or_eq_true, decide_eq_true_eq]
        exact Nat.le_total b.created_at a.created_at)
      (db.filter (fun r => r.owner_id == u.id))
    exact hs.imp (fun h => by simpa using h)
  · intro hnone
    unfold listQuery
    have : db.filter (fun r => r.owner_id == u.id) = [] := by
      rw [List.filter_eq_nil_iff]
      intro a ha
      simpa using hnone a ha
    rw [this]
    simp

/-- Witness for C6: a two-owner table seen by alice. -/
theorem list_exactly_owner_rows_sorted_witness :
    listHandler [rowA, rowB] (some ⟨"alice", none, none⟩) none =
      ⟨⟨200, .fileList (listQuery [rowA, rowB] "alice")⟩, []⟩ ∧
    (∀ r, r ∈ listQuery [rowA, rowB] "alice" ↔
        (r ∈ [rowA, rowB] ∧ r.owner_id = "alice")) ∧
    (listQuery [rowA, rowB] "alice").Perm
      ([rowA, rowB].filter (fun r => r.owner_id == "alice")) ∧
    (listQuery [rowA, rowB] "alice").Pairwise
      (fun a b => b.created_at ≤ a.created_at) ∧
    ((∀ r ∈ [rowA, rowB], r.owner_id ≠ "alice") →
      listQuery [rowA, rowB] "alice" = []) :=
  list_exactly_owner_rows_sorted [rowA, rowB] ⟨"alice", none, none⟩

/-- Counterexample for C4: an upload one byte over the 10 MiB limit is
answered with status 500 (the multer LIMIT_FILE_SIZE error falls through
to the global error handler of index.ts), not 400 — though still with no
object-store write. -/
theorem oversize_upload_answers_500_not_400 :
    (uploadRoute (some ⟨"alice", none, none⟩)
        (some ⟨"big.bin", "application/octet-stream", 10 * 1024 * 1024 + 1⟩)
        "uid" ⟨.ok "p", .ok ("f1", 0), .ok ()⟩).resp.status = 500 ∧
    (uploadRoute (some ⟨"alice", none, none⟩)
        (some ⟨"big.bin", "application/octet-stream", 10 * 1024 * 1024 + 1⟩)
        "uid" ⟨.ok "p", .ok ("f1", 0), .ok ()⟩).resp.status ≠ 400 ∧
    (uploadRoute (some ⟨"alice", none, none⟩)
        (some ⟨"big.bin", "application/octet-stream", 10 * 1024 * 1024 + 1⟩)
        "uid" ⟨.ok "p", .ok ("f1", 0), .ok ()⟩).actions = [] := by
  refine ⟨?_, ?_, ?_⟩ <;> first | rfl | decide

/-- C4 (amended): an upload with a missing file is rejected 400 with no
external call; an oversize upload is rejected before any object-store
write occurs, but is surfaced as 500 "Internal Server Error" by the
global error handler (no route-level middleware maps the multer error to
400). -/
theorem upload_validation_rejections
    (u : User) (f : UpFile) (uuid : String) (env : UploadEnv)
    (hover : f.size > MAX_FILE_SIZE) :
    uploadRoute (some u) none uuid env =
      ⟨⟨400, .errorMsg "No file provided or user not authenticated"⟩, []⟩ ∧
    uploadRoute (some u) (some f) uuid env =
      ⟨⟨500, .errorDetails "Internal Server Error" "File too large"⟩, []⟩ := by
  constructor
  · rfl
  · simp only [uploadRoute, multerSingle]
    rw [if_pos hover]

/-- Witness for C4 (amended): a missing file and a 10 MiB + 1 file. -/
theorem upload_validation_rejections_witness :
    uploadRoute (some ⟨"alice", none, none⟩) none "uid"
        ⟨.ok "p", .ok ("f1", 0), .ok ()⟩ =
      ⟨⟨400, .errorMsg "No file provided or user not authenticated"⟩, []⟩ ∧
    uploadRoute (some ⟨"alice", none, none⟩)
        (some ⟨"big.bin", "application/octet-stream", 10 * 1024 * 1024 + 1⟩)
        "uid" ⟨.ok "p", .ok ("f1", 0), .ok ()⟩ =
      ⟨⟨500, .errorDetails "Internal Server Error" "File too large"⟩, []⟩ :=
  upload_validation_rejections ⟨"alice", none, none⟩
    ⟨"big.bin", "application/octet-stream", 10 * 1024 * 1024 + 1⟩
    "uid" ⟨.ok "p", .ok ("f1", 0), .ok ()⟩ (by decide)

/-- Counterexample for C9: for the header "Bearer a b" the verifier is
called with "a" — the field between the first and second space — not with
"a b", the substring after the first space. -/
theorem auth_not_substring_after_first_space :
    (requireAuth (some "Bearer a b")
        (fun t => .ok ⟨t, none, none⟩)).verified = some "a" ∧
    ("a" : String) ≠ "a b" := by
  constructor
  · have hs : ("Bearer a b".split (fun c => c == ' ')) = ["Bearer", "a", "b"] := by
      rw [String.split_of_valid]; decide
    simp only [requireAuth, hs]
    decide
  · decide

/-- C9 (amended): the credential submitted to the verifier is the second
space-delimited field of the Authorization header (the segment between
the first space and the next one), regardless of scheme; any non-empty
header containing no space is rejected 401 "Missing Bearer token" with
the verifier never called. -/
theorem auth_second_field_extraction
    (h : String) (verifyUser : String → Except String User) :
    ((∀ c ∈ h.data, ¬(c = ' ')) → h ≠ "" →
      requireAuth (some h) verifyUser =
        ⟨some ⟨401, .errorMsg "Missing Bearer token"⟩, none, none⟩) ∧
    (∀ t, (h.split (fun c => c == ' ')).get? 1 = some t → t ≠ "" →
      (requireAuth (some h) verifyUser).verified = some t) := by
  constructor
  · intro hnos hne
    have hsp : h.split (fun c => c == ' ') = [h] := by
      obtain ⟨l⟩ := h
      rw [String.split_of_valid]
      rw [List.splitOnP_eq_single _ _ (fun c hc => by simpa using hnos c hc)]
      rfl
    simp only [requireAuth]
    rw [if_neg hne, hsp]
    rfl
  · intro t ht htne
    have hne : h ≠ "" := by
      intro he
      subst he
      have hemp : ("" : String).split (fun c => c == ' ') = [""] := by
        rw [String.split_of_valid]; decide
      rw [hemp] at ht
      simp at ht
    simp only [requireAuth]
    rw [if_neg hne, ht]
    simp only [Option.getD_some]
    rw [if_neg htne]
    cases verifyUser t <;> rfl

/-- Witness for C9 (amended): a "Basic xyz" header submits "xyz"; the
space-free header "tokenonly" is rejected without a verifier call. -/
theorem auth_second_field_extraction_witness :
    (requireAuth (some "Basic xyz")
        (fun t => .ok ⟨t, none, none⟩)).verified = some "xyz" ∧
    requireAuth (some "tokenonly") (fun t => .ok ⟨t, none, none⟩) =
      ⟨some ⟨401, .errorMsg "Missing Bearer token"⟩, none, none⟩ :=
  ⟨(auth_second_field_extraction "Basic xyz" (fun t => .ok ⟨t, none, none⟩)).2 "xyz"
      (by rw [String.split_of_valid]; decide) (by decide),
   (auth_second_field_extraction "tokenonly" (fun t => .ok ⟨t, none, none⟩)).1
      (by decide) (by decide)⟩

/-- A list containing a separator splits into at least two segments. -/
theorem two_le_length_splitOnP {α : Type} (p : α → Bool) (sep : α)
    (hsep : p sep = true) (b : List α) :
    ∀ l : List α, 2 ≤ (List.splitOnP p (l ++ sep :: b)).length := by
  intro l
  induction l with
  | nil =>
    rw [List.nil_append, List.splitOnP_cons, if_pos hsep]
    have h1 : 1 ≤ (List.splitOnP p b).length :=
      List.length_pos.mpr (List.splitOnP_ne_nil p b)
    simp only [List.length_cons]
    omega
  | cons x t ih =>
    rw [List.cons_append, List.splitOnP_cons]
    by_cases hx : p x
    · rw [if_pos hx]
      simp only [List.length_cons]
      omega
    · rw [if_neg hx, List.length_modifyHead]
      exact ih

/-- The last segment of a split at a separator-free tail `b` is `b`. -/
theorem getLast?_splitOnP_append {α : Type} (p : α → Bool) (sep : α)
    (hsep : p sep = true) (b : List α) (hb : ∀ x ∈ b, ¬ p x = true) :
    ∀ l : List α, (List.splitOnP p (l ++ sep :: b)).getLast? = some b := by
  intro l
  induction l with
  | nil =>
    rw [List.nil_append, List.splitOnP_cons, if_pos hsep,
      List.splitOnP_eq_single _ _ hb]
    rfl
  | cons x t ih =>
    rw [List.cons_append, List.splitOnP_cons]
    by_cases hx : p x
    · rw [if_pos hx]
      obtain ⟨y, L, hL⟩ :=
        List.exists_cons_of_ne_nil (List.splitOnP_ne_nil p (t ++ sep :: b))
      rw [hL]
      rw [hL] at ih
      rw [List.getLast?_cons_cons]
      exact ih
    · rw [if_neg hx]
      have h2 := two_le_length_splitOnP p sep hsep b t
      cases hL : List.splitOnP p (t ++ sep :: b) with
      | nil => exact absurd hL (List.splitOnP_ne_nil p _)
      | cons y L1 =>
        cases L1 with
        | nil => rw [hL] at h2; simp at h2
        | cons z L2 =>
          rw [hL] at ih
          simp only [List.modifyHead]
          rw [List.getLast?_cons_cons] at ih ⊢
          exact ih

/-- On a filename of the form `a ++ "." ++ b` with `b` dot-free, the
extension the upload handler derives is exactly `b`. -/
theorem fileExt_eq_last_segment (a b : List Char) (hb : ∀ c ∈ b, ¬(c = '.')) :
    fileExt ⟨a ++ '.' :: b⟩ = ⟨b⟩ := by
  unfold fileExt
  rw [String.split_of_valid]
  have hdata : (String.mk (a ++ '.' :: b)).data = a ++ '.' :: b := rfl
  rw [hdata]
  rw [List.getLast?_map]
  rw [getLast?_splitOnP_append (fun c => c == '.') '.' (by simp) b
    (fun c hc => by simpa using hb c hc) a]
  rfl

/-- On a dot-free filename the derived extension is the whole filename. -/
theorem fileExt_no_dot (s : String) (h : ∀ c ∈ s.data, ¬(c = '.')) :
    fileExt s = s := by
  obtain ⟨l⟩ := s
  unfold fileExt
  rw [String.split_of_valid]
  rw [List.splitOnP_eq_single _ _ (fun c hc => by simpa using h c hc)]
  rfl

/-- C10: the derived extension is the substring after the last '.' of the
original filename (the last dot-separated segment); a filename with no
'.' at all becomes its own "extension", making the stored path
`{ownerId}/{uuid}.{originalFilename}`, and a filename ending in '.' gets
the empty extension. -/
theorem fileExt_last_dot_segment (name ownerId uuid : String) :
    (∀ a b : List Char, name.data = a ++ '.' :: b → (∀ c ∈ b, ¬(c = '.')) →
      fileExt name = ⟨b⟩) ∧
    ((∀ c ∈ name.data, ¬(c = '.')) →
      fileExt name = name ∧
      derivedPath ownerId uuid name = ownerId ++ "/" ++ uuid ++ "." ++ name) ∧
    (∀ a : List Char, name.data = a ++ ['.'] → fileExt name = "") := by
  refine ⟨?_, ?_, ?_⟩
  · intro a b hab hb
    have hname : name = ⟨a ++ '.' :: b⟩ := by
      cases name
      exact congrArg String.mk hab
    rw [hname]
    exact fileExt_eq_last_segment a b hb
  · intro h
    have h1 := fileExt_no_dot name h
    refine ⟨h1, ?_⟩
    unfold derivedPath
    rw [h1]
  · intro a ha
    have hname : name = ⟨a ++ '.' :: ([] : List Char)⟩ := by
      cases name
      exact congrArg String.mk ha
    rw [hname]
    exact fileExt_eq_last_segment a [] (by intro c hc; simp at hc)

/-- Witness for C10: "a.b.c" → "c"; dot-free "noext" → itself, stored at
"alice/uid.noext"; "dot." → empty extension. -/
theorem fileExt_last_dot_segment_witness :
    fileExt "a.b.c" = "c" ∧
    (fileExt "noext" = "noext" ∧
      derivedPath "alice" "uid" "noext" =
        "alice" ++ "/" ++ "uid" ++ "." ++ "noext") ∧
    fileExt "dot." = "" :=
  ⟨(fileExt_last_dot_segment "a.b.c" "alice" "uid").1
      ['a', '.', 'b'] ['c'] (by decide) (by decide),
   (fileExt_last_dot_segment "noext" "alice" "uid").2.1 (by decide),
   (fileExt_last_dot_segment "dot." "alice" "uid").2.2
      ['d', 'o', 't'] (by decide)⟩

end DocSafe
